import Mathlib

/-!
Shallow embedding of the two search tools of file_search_server.py
(search_keyword_in_file and search_keyword_in_directory) together with
proofs of the specified properties.

Strings of the Python program are modelled as lists of characters
(Str); substring containment (the Python in operator) is List.IsInfix,
and str.endswith is List.IsSuffix.  File contents are modelled at two
levels: as raw bytes (decoded by an executable model of a UTF-8 decode
with the ignore error handler, matching the call
open(file_path, encoding=utf8, errors=ignore)) and, after the decode
and readlines, as the list of lines handed to the scanning loop.
Path-existence checks and the exceptions caught by the two functions
are modelled by explicit outcome types.
-/

namespace FileSearchServer

/-- Model of a Python str value: a list of characters. -/
abbrev Str := List Char

/-- Model of str.lower applied characterwise. -/
def pyLower (s : Str) : Str := s.map Char.toLower

/-- Embeds line 39 and line 117: the keyword is lowercased unless the
search is case sensitive. -/
def prepKeyword (case_sensitive : Bool) (keyword : Str) : Str :=
  if case_sensitive then keyword else pyLower keyword

/-- Embeds line 50 and line 149: each scanned line is lowercased unless
the search is case sensitive. -/
def prepLine (case_sensitive : Bool) (line : Str) : Str :=
  if case_sensitive then line else pyLower line

/-- Embeds the per-line test of line 52 and line 150: the prepared
keyword occurs as a substring of the prepared line (Python in). -/
def lineMatch (case_sensitive : Bool) (keyword line : Str) : Bool :=
  decide (prepKeyword case_sensitive keyword <:+: prepLine case_sensitive line)

/-- Embeds the Python call line.rstrip applied with a newline argument:
all trailing newline characters are removed (lines 59, 65, 153). -/
def rstripNl (s : Str) : Str :=
  (s.reverse.dropWhile (fun c => c == '\n')).reverse

/-- Embeds Python enumerate(lines, start=k): pairs each element with
its index counted from k. -/
def enumerate1 (k : Nat) : List Str → List (Nat × Str)
  | [] => []
  | l :: ls => (k, l) :: enumerate1 (k + 1) ls

/-- Embeds Python range(a, b) over integers: the list a, a+1, ..., b-1,
empty when b is at most a. -/
def pyRange (a b : Int) : List Int :=
  (List.range (b - a).toNat).map (fun (i : Nat) => a + (i : Int))

/-- One entry of the context block built on lines 58 to 61: the marker
string, the 1-based context line number, and the stripped line text.
The rendered report string interpolates exactly these three fields. -/
structure CtxLine where
  marker : String
  num : Int
  text : Str
deriving DecidableEq

/-- Embeds lines 54 to 61: the clipped inclusive window around a match
and the tagged context entries collected over it. -/
def mkContext (lines : List Str) (line_num : Nat) (context_lines : Int) : List CtxLine :=
  let start_line : Int := max 1 ((line_num : Int) - context_lines)
  let end_line : Int := min ((lines.length : Int)) ((line_num : Int) + context_lines)
  (pyRange start_line (end_line + 1)).map (fun ctx_line_num =>
    ⟨if ctx_line_num = (line_num : Int) then ">>>" else "   ",
     ctx_line_num,
     rstripNl (lines.getD (ctx_line_num - 1).toNat [])⟩)

/-- One match record appended on lines 63 to 67 of the single-file
search: 1-based line number, stripped line text, context block. -/
structure FMatch where
  line_number : Nat
  line : Str
  context : List CtxLine
deriving DecidableEq

/-- Embeds the scanning loop of lines 49 to 67: every line whose
prepared text contains the prepared keyword yields one match record. -/
def fileMatches (lines : List Str) (keyword : Str) (case_sensitive : Bool)
    (context_lines : Int) : List FMatch :=
  (enumerate1 1 lines).filterMap (fun p =>
    if lineMatch case_sensitive keyword p.2 then
      some ⟨p.1, rstripNl p.2, mkContext lines p.1 context_lines⟩
    else none)

/-- The distinct outcomes of search_keyword_in_file: the five error
messages of lines 31 to 36 and 82 to 87, the no-match message of
line 71, and the formatted match report of lines 73 to 80. -/
inductive FileSearchResult where
  | NotFound
  | NotAFile
  | PermissionDenied
  | DecodeError
  | ReadError
  | NoMatches
  | Found (ms : List FMatch)
deriving DecidableEq

/-- Embeds lines 41 to 80 of search_keyword_in_file after a successful
read handed the list of lines: scan, then either the no-match message
(line 70 to 71) or the match report. -/
def search_keyword_in_file (lines : List Str) (keyword : Str)
    (case_sensitive : Bool) (context_lines : Int) : FileSearchResult :=
  let ms := fileMatches lines keyword case_sensitive context_lines
  if ms.isEmpty then .NoMatches else .Found ms

/-- Whether a byte is a UTF-8 continuation byte. -/
def isCont (b : Nat) : Bool := decide (0x80 ≤ b ∧ b ≤ 0xBF)

/-- Valid first continuation byte of a three-byte UTF-8 sequence,
excluding overlong encodings (lead 0xE0) and surrogates (lead 0xED). -/
def cont3Valid (b b1 : Nat) : Bool :=
  if b = 0xE0 then decide (0xA0 ≤ b1 ∧ b1 ≤ 0xBF)
  else if b = 0xED then decide (0x80 ≤ b1 ∧ b1 ≤ 0x9F)
  else isCont b1

/-- Valid first continuation byte of a four-byte UTF-8 sequence,
excluding overlong encodings (lead 0xF0) and values above 0x10FFFF
(lead 0xF4). -/
def cont4Valid (b b1 : Nat) : Bool :=
  if b = 0xF0 then decide (0x90 ≤ b1 ∧ b1 ≤ 0xBF)
  else if b = 0xF4 then decide (0x80 ≤ b1 ∧ b1 ≤ 0x8F)
  else isCont b1

/-- One step of the UTF-8 decode: given the current byte and the
remaining bytes, returns the decoded character (or none when the byte
starts no valid sequence) and how many further bytes were consumed. -/
def utf8Step (b : Nat) (rest : List Nat) : Option Char × Nat :=
  if b ≤ 0x7F then (some (Char.ofNat b), 0)
  else if 0xC2 ≤ b ∧ b ≤ 0xDF then
    match rest with
    | b1 :: _ =>
      if isCont b1 then
        (some (Char.ofNat ((b - 0xC0) * 0x40 + (b1 - 0x80))), 1)
      else (none, 0)
    | [] => (none, 0)
  else if 0xE0 ≤ b ∧ b ≤ 0xEF then
    match rest with
    | b1 :: b2 :: _ =>
      if cont3Valid b b1 && isCont b2 then
        (some (Char.ofNat ((b - 0xE0) * 0x1000 + (b1 - 0x80) * 0x40 + (b2 - 0x80))), 2)
      else (none, 0)
    | _ => (none, 0)
  else if 0xF0 ≤ b ∧ b ≤ 0xF4 then
    match rest with
    | b1 :: b2 :: b3 :: _ =>
      if cont4Valid b b1 && isCont b2 && isCont b3 then
        (some (Char.ofNat ((b - 0xF0) * 0x40000 + (b1 - 0x80) * 0x1000
          + (b2 - 0x80) * 0x40 + (b3 - 0x80))), 3)
      else (none, 0)
    | _ => (none, 0)
  else (none, 0)

/-- Decode loop: each round consumes at least the current byte, so a
fuel equal to the number of bytes suffices; invalid bytes produce no
character and are skipped, never an error. -/
def utf8DecodeGo : Nat → List Nat → List Char
  | _, [] => []
  | 0, _ :: _ => []
  | fuel + 1, b :: rest =>
    match utf8Step b rest with
    | (some c, k) => c :: utf8DecodeGo fuel (rest.drop k)
    | (none, k) => utf8DecodeGo fuel (rest.drop k)

/-- Executable model of the read on line 45 (and line 144): decoding
the raw bytes as UTF-8 with the ignore error handler.  It is total:
every byte sequence decodes to some text, so the read never raises a
decode error. -/
def utf8DecodeIgnore (content : List Nat) : List Char :=
  utf8DecodeGo content.length content

/-- Universal-newline translation performed by Python text mode:
a carriage return followed by a line feed, or a lone carriage return,
becomes a line feed. -/
def translateNewlines : Str → Str
  | [] => []
  | [c] => if c = '\r' then ['\n'] else [c]
  | c :: c2 :: rest =>
    if c = '\r' then
      if c2 = '\n' then '\n' :: translateNewlines rest
      else '\n' :: translateNewlines (c2 :: rest)
    else c :: translateNewlines (c2 :: rest)

/-- Splits translated text into lines, each keeping its trailing line
feed, as Python readlines does; empty text gives no lines. -/
def splitLinesKeepEnds : Str → List Str
  | [] => []
  | c :: rest =>
    if c = '\n' then ['\n'] :: splitLinesKeepEnds rest
    else
      match splitLinesKeepEnds rest with
      | [] => [[c]]
      | l :: ls => (c :: l) :: ls

/-- Model of f.readlines() on a text-mode file: newline translation
followed by the keepends line split. -/
def pyReadlines (s : Str) : List Str :=
  splitLinesKeepEnds (translateNewlines s)

/-- Outcome of the open and read on lines 45 to 46: either the raw
bytes of the file (the decode itself cannot fail under the ignore
handler), a PermissionError, or any other exception. -/
inductive OpenOutcome where
  | bytes (content : List Nat)
  | permissionDenied
  | otherError
deriving DecidableEq

/-- Embeds search_keyword_in_file end to end: the existence checks of
lines 31 to 36, the guarded read of lines 43 to 46 with the except
clauses of lines 82 to 87, and the scan of the decoded lines. -/
def search_keyword_in_file_full (fileExists isFile : Bool) (opened : OpenOutcome)
    (keyword : Str) (case_sensitive : Bool) (context_lines : Int) : FileSearchResult :=
  if fileExists = false then .NotFound
  else if isFile = false then .NotAFile
  else
    match opened with
    | .bytes content =>
        search_keyword_in_file (pyReadlines (utf8DecodeIgnore content))
          keyword case_sensitive context_lines
    | .permissionDenied => .PermissionDenied
    | .otherError => .ReadError

/-- The hardcoded allow-list of lines 121 to 125. -/
def text_extensions : List Str :=
  [".py".data, ".txt".data, ".md".data, ".json".data, ".xml".data, ".html".data,
   ".css".data, ".js".data, ".ts".data, ".java".data, ".cpp".data, ".c".data,
   ".h".data, ".hpp".data, ".rs".data, ".go".data, ".rb".data, ".php".data,
   ".sh".data, ".yaml".data, ".yml".data, ".toml".data, ".ini".data, ".cfg".data,
   ".conf".data]

/-- Index of the last dot of a name, if any. -/
def rfindDot (s : Str) : Option Nat :=
  match List.findIdx? (fun c => c == '.') s.reverse with
  | none => none
  | some j => some (s.length - 1 - j)

/-- Embeds os.path.splitext restricted to a base name (the walk hands
base names, which contain no path separator): the extension starts at
the last dot, except that a name whose every character before that dot
is itself a dot has no extension. -/
def splitextExt (file : Str) : Str :=
  match rfindDot file with
  | none => []
  | some i => if (file.take i).all (fun c => c == '.') then [] else file.drop i

/-- Embeds the Python truthiness test of line 134: the filter branch is
taken only for a present and non-empty pattern. -/
def truthyPat : Option Str → Bool
  | none => false
  | some p => !p.isEmpty

/-- Embeds the per-file filter of lines 133 to 141: with a truthy
pattern, a raw suffix test on the file name; otherwise membership of
the lowercased extension in the allow-list. -/
def fileIncluded (file : Str) (file_pattern : Option Str) : Bool :=
  if truthyPat file_pattern then
    decide ((file_pattern.getD []) <:+ file)
  else
    decide (pyLower (splitextExt file) ∈ text_extensions)

/-- One match record of the directory search (lines 151 to 154): line
number and stripped text, no context. -/
structure DMatch where
  line_number : Nat
  line : Str
deriving DecidableEq

/-- Outcome of the per-file open and read on lines 144 to 145 inside
the walk: the list of decoded lines, or one of the exceptions caught
on lines 161 to 165. -/
inductive ReadOutcome where
  | ok (lines : List Str)
  | permissionError
  | decodeError
  | otherError
deriving DecidableEq

/-- Whether a read outcome is one of the caught per-file exceptions. -/
def ReadOutcome.isErr : ReadOutcome → Bool
  | .ok _ => false
  | _ => true

/-- One file presented by os.walk, in walk order: its base name (used
by the filters), its path relative to the search root (the result
key computed on line 158), and its read outcome. -/
structure DirFile where
  name : Str
  rel_path : String
  read : ReadOutcome
deriving DecidableEq

/-- Embeds the inner scan of lines 147 to 154. -/
def dirFileMatches (lines : List Str) (keyword : Str) (case_sensitive : Bool) :
    List DMatch :=
  (enumerate1 1 lines).filterMap (fun p =>
    if lineMatch case_sensitive keyword p.2 then
      some ⟨p.1, rstripNl p.2⟩
    else none)

/-- Embeds one iteration of the walk loop, lines 130 to 165: the filter,
the guarded read with silently skipped per-file errors, and the entry
recorded on lines 156 to 159 when at least one line matched. -/
def dirScanFile (keyword : Str) (file_pattern : Option Str) (case_sensitive : Bool)
    (f : DirFile) : Option (String × List DMatch) :=
  if fileIncluded f.name file_pattern then
    match f.read with
    | .ok lines =>
        let file_matches := dirFileMatches lines keyword case_sensitive
        if file_matches.isEmpty then none else some (f.rel_path, file_matches)
    | _ => none
  else none

/-- Embeds the accumulated matches_by_file mapping over the whole walk,
keyed in insertion order. -/
def matches_by_file (files : List DirFile) (keyword : Str)
    (file_pattern : Option Str) (case_sensitive : Bool) : List (String × List DMatch) :=
  files.filterMap (dirScanFile keyword file_pattern case_sensitive)

/-- The distinct outcomes of search_keyword_in_directory: the error
messages of lines 111 to 115, the no-match message of line 169, and
the formatted report of lines 171 to 179. -/
inductive DirResult where
  | NotFound
  | NotADirectory
  | NoMatchesDir
  | FoundDir (m : List (String × List DMatch))
deriving DecidableEq

/-- Embeds search_keyword_in_directory after the directory checks: the
walk is abstracted as the list of encountered files in walk order. -/
def search_keyword_in_directory (files : List DirFile) (keyword : Str)
    (file_pattern : Option Str) (case_sensitive : Bool) : DirResult :=
  let m := matches_by_file files keyword file_pattern case_sensitive
  if m.isEmpty then .NoMatchesDir else .FoundDir m

/-- Derived view used by several proofs: the 1-based numbers of the
matching lines, in scan order. -/
def matchLineNums (lines : List Str) (keyword : Str) (case_sensitive : Bool) : List Nat :=
  (enumerate1 1 lines).filterMap (fun p =>
    if lineMatch case_sensitive keyword p.2 then some p.1 else none)

/-- Membership in a Python integer range. -/
theorem mem_pyRange {a b x : Int} : x ∈ pyRange a b ↔ a ≤ x ∧ x < b := by
  unfold pyRange
  simp only [List.mem_map, List.mem_range]
  constructor
  · rintro ⟨i, hi, rfl⟩
    omega
  · intro h
    exact ⟨(x - a).toNat, by omega, by omega⟩

/-- Length of a Python integer range. -/
theorem length_pyRange (a b : Int) : (pyRange a b).length = (b - a).toNat := by
  simp [pyRange]

/-- A Python integer range has no duplicates. -/
theorem nodup_pyRange (a b : Int) : (pyRange a b).Nodup := by
  unfold pyRange
  exact (List.nodup_range _).map (fun i j h => by omega)

/-- Enumeration preserves length. -/
theorem length_enumerate1 (k : Nat) (ls : List Str) :
    (enumerate1 k ls).length = ls.length := by
  induction ls generalizing k with
  | nil => rfl
  | cons hd tl ih => simp [enumerate1, ih]

/-- Membership in an enumeration: the pairs are exactly the elements
with their shifted indices. -/
theorem mem_enumerate1 {ls : List Str} {k n : Nat} {l : Str} :
    (n, l) ∈ enumerate1 k ls ↔ ∃ i, i < ls.length ∧ ls[i]? = some l ∧ n = k + i := by
  induction ls generalizing k with
  | nil => simp [enumerate1]
  | cons hd tl ih =>
    simp only [enumerate1, List.mem_cons, ih]
    constructor
    · rintro (h | ⟨i, hi, hget, rfl⟩)
      · obtain ⟨rfl, rfl⟩ := Prod.mk.injEq .. ▸ h
        exact ⟨0, by simp, by simp, by omega⟩
      · exact ⟨i + 1, by simp; omega, by simpa using hget, by omega⟩
    · rintro ⟨i, hi, hget, rfl⟩
      cases i with
      | zero =>
        left
        simp only [List.getElem?_cons_zero, Option.some.injEq] at hget
        simp [hget]
      | succ j =>
        right
        exact ⟨j, by simpa using hi, by simpa using hget, by omega⟩

/-- Characterization of the match records of the single-file scan. -/
theorem mem_fileMatches {lines : List Str} {kw : Str} {cs : Bool} {cl : Int} {m : FMatch} :
    m ∈ fileMatches lines kw cs cl ↔
      ∃ n line, (n, line) ∈ enumerate1 1 lines ∧ lineMatch cs kw line = true ∧
        m = ⟨n, rstripNl line, mkContext lines n cl⟩ := by
  unfold fileMatches
  simp only [List.mem_filterMap]
  constructor
  · rintro ⟨⟨n, line⟩, hmem, hsome⟩
    by_cases h : lineMatch cs kw line
    · simp only [h, if_true, Option.some.injEq] at hsome
      exact ⟨n, line, hmem, h, hsome.symm⟩
    · simp [h] at hsome
  · rintro ⟨n, line, hmem, hc, rfl⟩
    exact ⟨(n, line), hmem, by simp [hc]⟩

/-- Characterization of the match records of the directory scan. -/
theorem mem_dirFileMatches {lines : List Str} {kw : Str} {cs : Bool} {m : DMatch} :
    m ∈ dirFileMatches lines kw cs ↔
      ∃ n line, (n, line) ∈ enumerate1 1 lines ∧ lineMatch cs kw line = true ∧
        m = ⟨n, rstripNl line⟩ := by
  unfold dirFileMatches
  simp only [List.mem_filterMap]
  constructor
  · rintro ⟨⟨n, line⟩, hmem, hsome⟩
    by_cases h : lineMatch cs kw line
    · simp only [h, if_true, Option.some.injEq] at hsome
      exact ⟨n, line, hmem, h, hsome.symm⟩
    · simp [h] at hsome
  · rintro ⟨n, line, hmem, hc, rfl⟩
    exact ⟨(n, line), hmem, by simp [hc]⟩

/-- The case-insensitive line test is lowercased substring containment. -/
theorem lineMatch_false_iff {kw line : Str} :
    lineMatch false kw line = true ↔ pyLower kw <:+: pyLower line := by
  simp [lineMatch, prepKeyword, prepLine]

/-- The case-sensitive line test is verbatim substring containment. -/
theorem lineMatch_true_iff {kw line : Str} :
    lineMatch true kw line = true ↔ kw <:+: line := by
  simp [lineMatch, prepKeyword, prepLine]

/-- Projecting the single-file match records to their line numbers
gives the matching line numbers, independently of the context size. -/
theorem fileMatches_map_line_number (lines : List Str) (kw : Str) (cs : Bool) (cl : Int) :
    (fileMatches lines kw cs cl).map FMatch.line_number = matchLineNums lines kw cs := by
  unfold fileMatches matchLineNums
  rw [List.map_filterMap]
  congr 1
  funext p
  split <;> rfl

/-- Projecting the directory match records to their line numbers gives
the matching line numbers. -/
theorem dirFileMatches_map_line_number (lines : List Str) (kw : Str) (cs : Bool) :
    (dirFileMatches lines kw cs).map DMatch.line_number = matchLineNums lines kw cs := by
  unfold dirFileMatches matchLineNums
  rw [List.map_filterMap]
  congr 1
  funext p
  split <;> rfl

/-- Every matching line number produced from an enumeration starting at
k is at least k. -/
theorem matchLineNums_lowerBound (kw : Str) (cs : Bool) :
    ∀ (k : Nat) (ls : List Str) (n : Nat),
      n ∈ (enumerate1 k ls).filterMap
        (fun p => if lineMatch cs kw p.2 then some p.1 else none) → k ≤ n := by
  intro k ls
  induction ls generalizing k with
  | nil => simp [enumerate1]
  | cons hd tl ih =>
    intro n hn
    by_cases h : lineMatch cs kw hd
    · simp only [enumerate1, List.filterMap_cons, h, if_true, List.mem_cons] at hn
      rcases hn with rfl | hn
      · exact Nat.le_refl n
      · have := ih (k + 1) n hn
        omega
    · simp only [enumerate1, List.filterMap_cons, h, if_false] at hn
      have := ih (k + 1) n hn
      omega

/-- The matching line numbers produced from an enumeration are strictly
increasing. -/
theorem matchLineNums_pairwise_aux (kw : Str) (cs : Bool) :
    ∀ (k : Nat) (ls : List Str),
      ((enumerate1 k ls).filterMap
        (fun p => if lineMatch cs kw p.2 then some p.1 else none)).Pairwise (· < ·) := by
  intro k ls
  induction ls generalizing k with
  | nil => simp [enumerate1]
  | cons hd tl ih =>
    by_cases h : lineMatch cs kw hd
    · simp only [enumerate1, List.filterMap_cons, h, if_true]
      exact List.Pairwise.cons
        (fun n hn => by have := matchLineNums_lowerBound kw cs (k + 1) tl n hn; omega)
        (ih (k + 1))
    · simp only [enumerate1, List.filterMap_cons, h, if_false]
      exact ih (k + 1)

/-- The matching line numbers of a file are strictly increasing. -/
theorem matchLineNums_pairwise (lines : List Str) (kw : Str) (cs : Bool) :
    (matchLineNums lines kw cs).Pairwise (· < ·) :=
  matchLineNums_pairwise_aux kw cs 1 lines

/-- There are as many matching line numbers as lines passing the
boolean per-line test. -/
theorem matchLineNums_length_aux (kw : Str) (cs : Bool) :
    ∀ (k : Nat) (ls : List Str),
      ((enumerate1 k ls).filterMap
        (fun p => if lineMatch cs kw p.2 then some p.1 else none)).length
        = (ls.filter (fun l => lineMatch cs kw l)).length := by
  intro k ls
  induction ls generalizing k with
  | nil => simp [enumerate1]
  | cons hd tl ih =>
    simp only [enumerate1, List.filterMap_cons, List.filter_cons]
    by_cases h : lineMatch cs kw hd
    · simp [h, ih (k + 1)]
    · simp [h, ih (k + 1)]

/-- Length form of the one-match-per-matching-line property. -/
theorem matchLineNums_length (lines : List Str) (kw : Str) (cs : Bool) :
    (matchLineNums lines kw cs).length
      = (lines.filter (fun l => lineMatch cs kw l)).length :=
  matchLineNums_length_aux kw cs 1 lines

/-- A filterMap whose test always succeeds is a map. -/
theorem filterMap_if_true {α β : Type} (cond : α → Bool) (g : α → β) (l : List α)
    (h : ∀ x ∈ l, cond x = true) :
    (l.filterMap (fun x => if cond x then some (g x) else none)) = l.map g := by
  induction l with
  | nil => rfl
  | cons hd tl ih =>
    rw [List.filterMap_cons, List.map_cons]
    rw [if_pos (h hd (List.mem_cons_self hd tl))]
    rw [ih (fun x hx => h x (List.mem_cons_of_mem hd hx))]

/-- The indices of an enumeration starting at k are k, k+1, and so on. -/
theorem enumerate1_map_fst (k : Nat) (ls : List Str) :
    (enumerate1 k ls).map Prod.fst = List.range' k ls.length := by
  induction ls generalizing k with
  | nil => rfl
  | cons hd tl ih => simp [enumerate1, List.range'_succ, ih]

/-- The single-file search reports a match at a line number exactly
when that line exists and passes the per-line test. -/
theorem exists_fileMatch_iff {lines : List Str} {kw : Str} {cs : Bool} {cl : Int}
    {n : Nat} :
    (∃ m ∈ fileMatches lines kw cs cl, m.line_number = n) ↔
      (∃ line, 1 ≤ n ∧ lines[n - 1]? = some line ∧ lineMatch cs kw line = true) := by
  constructor
  · rintro ⟨m, hm, rfl⟩
    obtain ⟨n', line, hen, hc, rfl⟩ := mem_fileMatches.mp hm
    obtain ⟨i, hi, hget, rfl⟩ := mem_enumerate1.mp hen
    refine ⟨line, by show 1 ≤ 1 + i; omega, ?_, hc⟩
    show lines[1 + i - 1]? = some line
    rw [show 1 + i - 1 = i from by omega]
    exact hget
  · rintro ⟨line, hn, hget, hc⟩
    have hlt : n - 1 < lines.length := (List.getElem?_eq_some.mp hget).1
    refine ⟨⟨n, rstripNl line, mkContext lines n cl⟩, ?_, rfl⟩
    exact mem_fileMatches.mpr
      ⟨n, line, mem_enumerate1.mpr ⟨n - 1, hlt, hget, by omega⟩, hc, rfl⟩

/-- The directory scan reports a match at a line number exactly when
that line exists and passes the per-line test. -/
theorem exists_dirMatch_iff {lines : List Str} {kw : Str} {cs : Bool} {n : Nat} :
    (∃ m ∈ dirFileMatches lines kw cs, m.line_number = n) ↔
      (∃ line, 1 ≤ n ∧ lines[n - 1]? = some line ∧ lineMatch cs kw line = true) := by
  constructor
  · rintro ⟨m, hm, rfl⟩
    obtain ⟨n', line, hen, hc, rfl⟩ := mem_dirFileMatches.mp hm
    obtain ⟨i, hi, hget, rfl⟩ := mem_enumerate1.mp hen
    refine ⟨line, by show 1 ≤ 1 + i; omega, ?_, hc⟩
    show lines[1 + i - 1]? = some line
    rw [show 1 + i - 1 = i from by omega]
    exact hget
  · rintro ⟨line, hn, hget, hc⟩
    have hlt : n - 1 < lines.length := (List.getElem?_eq_some.mp hget).1
    refine ⟨⟨n, rstripNl line⟩, ?_, rfl⟩
    exact mem_dirFileMatches.mpr
      ⟨n, line, mem_enumerate1.mpr ⟨n - 1, hlt, hget, by omega⟩, hc, rfl⟩

/-- A file whose read raised one of the caught exceptions contributes
nothing to the walk. -/
theorem dirScanFile_none_of_err {kw : Str} {pat : Option Str} {cs : Bool} {f : DirFile}
    (h : f.read.isErr = true) : dirScanFile kw pat cs f = none := by
  unfold dirScanFile
  cases hr : f.read with
  | ok ls => rw [hr] at h; simp [ReadOutcome.isErr] at h
  | permissionError => split <;> rfl
  | decodeError => split <;> rfl
  | otherError => split <;> rfl

/-- A file rejected by the filter contributes nothing to the walk. -/
theorem dirScanFile_none_of_not_included {kw : Str} {pat : Option Str} {cs : Bool}
    {f : DirFile} (h : fileIncluded f.name pat = false) :
    dirScanFile kw pat cs f = none := by
  unfold dirScanFile
  simp [h]

/-- The single-file match count equals the count of lines passing the
boolean per-line test. -/
theorem fileMatches_length (lines : List Str) (kw : Str) (cs : Bool) (cl : Int) :
    (fileMatches lines kw cs cl).length
      = (lines.filter (fun l => lineMatch cs kw l)).length := by
  have h := congrArg List.length (fileMatches_map_line_number lines kw cs cl)
  simpa [matchLineNums_length] using h

/-- The directory per-file match count equals the count of lines
passing the boolean per-line test. -/
theorem dirFileMatches_length (lines : List Str) (kw : Str) (cs : Bool) :
    (dirFileMatches lines kw cs).length
      = (lines.filter (fun l => lineMatch cs kw l)).length := by
  have h := congrArg List.length (dirFileMatches_map_line_number lines kw cs)
  simpa [matchLineNums_length] using h

/-- The single-file search never produces an error outcome once handed
a list of lines: it reports either no matches or the match list. -/
theorem search_keyword_in_file_cases (lines : List Str) (kw : Str) (cs : Bool) (cl : Int) :
    search_keyword_in_file lines kw cs cl = .NoMatches ∨
      ∃ ms, search_keyword_in_file lines kw cs cl = .Found ms := by
  unfold search_keyword_in_file
  by_cases h : (fileMatches lines kw cs cl).isEmpty
  · left
    simp [h]
  · right
    exact ⟨fileMatches lines kw cs cl, by simp [h]⟩

/-- Projecting the built context entries to their numbers recovers the
underlying range. -/
theorem map_num_mk (l : List Int) (f : Int → String) (g : Int → Str) :
    (l.map (fun x => (⟨f x, x, g x⟩ : CtxLine))).map CtxLine.num = l := by
  induction l with
  | nil => rfl
  | cons hd tl ih => simp [ih]

/-- The context block of a matched line: its numbers form exactly the
clipped window, its size and bounds are as specified, it has no
duplicates, and the matched line carries the distinguished marker. -/
theorem mkContext_spec (lines : List Str) (n : Nat) (cl : Int)
    (hcl : 0 ≤ cl) (h1 : 1 ≤ n) (h2 : n ≤ lines.length) :
    (mkContext lines n cl).map CtxLine.num
        = pyRange (max 1 ((n : Int) - cl)) (min ((lines.length : Int)) ((n : Int) + cl) + 1)
    ∧ 1 ≤ (mkContext lines n cl).length
    ∧ ((mkContext lines n cl).length : Int) ≤ 2 * cl + 1
    ∧ (∀ c ∈ mkContext lines n cl, 1 ≤ c.num ∧ c.num ≤ (lines.length : Int))
    ∧ ((mkContext lines n cl).map CtxLine.num).Nodup
    ∧ (∃ c ∈ mkContext lines n cl, c.num = (n : Int) ∧ c.marker = ">>>")
    ∧ (∀ c ∈ mkContext lines n cl, c.num ≠ (n : Int) → c.marker = "   ") := by
  have hmap : (mkContext lines n cl).map CtxLine.num
      = pyRange (max 1 ((n : Int) - cl))
          (min ((lines.length : Int)) ((n : Int) + cl) + 1) := by
    exact map_num_mk
      (pyRange (max 1 ((n : Int) - cl)) (min ((lines.length : Int)) ((n : Int) + cl) + 1))
      (fun x => if x = (n : Int) then ">>>" else "   ")
      (fun x => rstripNl (lines.getD (x - 1).toNat []))
  have hlen : (mkContext lines n cl).length
      = ((min ((lines.length : Int)) ((n : Int) + cl) + 1)
          - max 1 ((n : Int) - cl)).toNat := by
    simp [mkContext, length_pyRange]
  refine ⟨hmap, ?_, ?_, ?_, ?_, ?_, ?_⟩
  · rw [hlen]; omega
  · rw [hlen]; omega
  · intro c hc
    simp only [mkContext, List.mem_map] at hc
    obtain ⟨x, hx, rfl⟩ := hc
    have hb := mem_pyRange.mp hx
    exact ⟨by show (1 : Int) ≤ x; omega, by show x ≤ ((lines.length : Int)); omega⟩
  · rw [hmap]; exact nodup_pyRange _ _
  · have hmem : (n : Int) ∈ pyRange (max 1 ((n : Int) - cl))
        (min ((lines.length : Int)) ((n : Int) + cl) + 1) :=
      mem_pyRange.mpr ⟨by omega, by omega⟩
    refine ⟨⟨">>>", (n : Int), rstripNl (lines.getD (((n : Int)) - 1).toNat [])⟩, ?_, rfl, rfl⟩
    simp only [mkContext, List.mem_map]
    exact ⟨(n : Int), hmem, by simp⟩
  · intro c hc hne
    simp only [mkContext, List.mem_map] at hc
    obtain ⟨x, hx, rfl⟩ := hc
    have hxn : x ≠ (n : Int) := hne
    show (if x = (n : Int) then ">>>" else "   ") = "   "
    simp [hxn]

/-- Claim C1: for every file and every context size of at least zero,
each match of the single-file search carries a context block whose line
numbers are exactly the inclusive range from max(1, line minus size) to
min(total, line plus size); the block holds between 1 and two times
size plus 1 lines, stays inside the file, repeats no line, and tags the
matched line with a marker distinct from the one of the other lines. -/
theorem C1_context_window :
    ∀ (lines : List Str) (kw : Str) (cs : Bool) (cl : Int), 0 ≤ cl →
      ∀ m ∈ fileMatches lines kw cs cl,
        m.context.map CtxLine.num
            = pyRange (max 1 ((m.line_number : Int) - cl))
                (min ((lines.length : Int)) ((m.line_number : Int) + cl) + 1)
        ∧ 1 ≤ m.context.length
        ∧ ((m.context.length : Int)) ≤ 2 * cl + 1
        ∧ (∀ c ∈ m.context, 1 ≤ c.num ∧ c.num ≤ (lines.length : Int))
        ∧ (m.context.map CtxLine.num).Nodup
        ∧ (∃ c ∈ m.context, c.num = (m.line_number : Int) ∧ c.marker = ">>>")
        ∧ (∀ c ∈ m.context, c.num ≠ (m.line_number : Int) → c.marker = "   ")
        ∧ (">>>" : String) ≠ "   " := by
  intro lines kw cs cl hcl m hm
  obtain ⟨n, line, hen, hc, rfl⟩ := mem_fileMatches.mp hm
  obtain ⟨i, hi, hget, rfl⟩ := mem_enumerate1.mp hen
  have h1 : 1 ≤ 1 + i := by omega
  have h2 : 1 + i ≤ lines.length := by omega
  have hs := mkContext_spec lines (1 + i) cl hcl h1 h2
  exact ⟨hs.1, hs.2.1, hs.2.2.1, hs.2.2.2.1, hs.2.2.2.2.1, hs.2.2.2.2.2.1,
    hs.2.2.2.2.2.2, by decide⟩

/-- Witness for claim C1 at the example of the specification: the file
alpha, BETA, gamma searched for beta with one context line; the match
at line 2 is in the match list, and its context block is nonempty. -/
theorem C1_context_window_witness :
    ((0 : Int) ≤ 1)
    ∧ ((⟨2, "BETA".data, mkContext ["alpha".data, "BETA".data, "gamma".data] 2 1⟩ : FMatch)
        ∈ fileMatches ["alpha".data, "BETA".data, "gamma".data] "beta".data false 1)
    ∧ 1 ≤ (mkContext ["alpha".data, "BETA".data, "gamma".data] 2 1).length :=
  ⟨by decide, by decide,
    (C1_context_window ["alpha".data, "BETA".data, "gamma".data] "beta".data false 1
      (by decide)
      ⟨2, "BETA".data, mkContext ["alpha".data, "BETA".data, "gamma".data] 2 1⟩
      (by decide)).2.1⟩

/-- Claim C2 counterexample: the claim fails on the code at two
explicit inputs.  First, with file_pattern .py the file named snappy is
not included, although the claim demands its inclusion: a directory
holding only snappy, whose one line contains the keyword, reports no
matches, because snappy does not end with .py.  Second, the raw-suffix
reading fails for the empty pattern: every name ends with the empty
string, yet a file x.zzz containing the keyword is not included when
file_pattern is the empty string, because the code tests the pattern
for Python truthiness and falls back to the extension allow-list. -/
theorem C2_suffix_filter_counterexample :
    (search_keyword_in_directory [⟨"snappy".data, "snappy", .ok ["hello".data]⟩]
        "hello".data (some ".py".data) false = .NoMatchesDir)
    ∧ fileIncluded "snappy".data (some ".py".data) = false
    ∧ (search_keyword_in_directory [⟨"x.zzz".data, "x.zzz", .ok ["hello".data]⟩]
        "hello".data (some []) false = .NoMatchesDir)
    ∧ (([] : Str) <:+ "x.zzz".data)
    ∧ dirFileMatches ["hello".data] "hello".data false ≠ [] := by
  refine ⟨by decide, by decide, by decide, by decide, by decide⟩

/-- Claim C2 as amended: when a non-empty file_pattern is given, the
directory search includes exactly the files whose name ends with that
string as a raw suffix; a file that the filter rejects, or one whose
name the non-empty pattern does not end, contributes nothing.  With
pattern .py this includes a.py but excludes snappy; with pattern py it
includes copy.py and snappy.  An empty file_pattern behaves as if no
pattern was given, falling back to the extension allow-list. -/
theorem C2_suffix_filter_amended :
    (∀ (pat file : Str), pat ≠ [] →
      (fileIncluded file (some pat) = true ↔ pat <:+ file))
    ∧ (∀ (kw : Str) (pat : Option Str) (cs : Bool) (f : DirFile),
        fileIncluded f.name pat = false → dirScanFile kw pat cs f = none)
    ∧ fileIncluded "a.py".data (some ".py".data) = true
    ∧ fileIncluded "snappy".data (some ".py".data) = false
    ∧ fileIncluded "copy.py".data (some "py".data) = true
    ∧ fileIncluded "snappy".data (some "py".data) = true
    ∧ (∀ file : Str, fileIncluded file (some []) = fileIncluded file none) := by
  refine ⟨?_, ?_, by decide, by decide, by decide, by decide, ?_⟩
  · intro pat file hne
    unfold fileIncluded
    have ht : truthyPat (some pat) = true := by
      simp [truthyPat, List.isEmpty_iff, hne]
    rw [ht]
    simp
  · intro kw pat cs f h
    exact dirScanFile_none_of_not_included h
  · intro file
    unfold fileIncluded
    simp [truthyPat]

/-- Witness for the amended claim C2: the general raw-suffix rule
applied at the concrete pattern .py and file name a.py. -/
theorem C2_suffix_filter_amended_witness :
    (".py".data ≠ ([] : Str))
    ∧ fileIncluded "a.py".data (some ".py".data) = true :=
  ⟨by decide,
    (C2_suffix_filter_amended.1 ".py".data "a.py".data (by decide)).mpr (by decide)⟩

/-- Claim C3: the read decodes permissively, every byte content yields
text (invalid bytes are dropped), so a mostly-text file is still
searched; the function never returns the decode-error outcome, and a
successful open always proceeds to the scan of the decoded lines.  The
concrete file holding the bytes of hi with an invalid 0xFF byte in the
middle decodes to hi and is searched successfully. -/
theorem C3_permissive_decode :
    (∀ (fe isf : Bool) (opened : OpenOutcome) (kw : Str) (cs : Bool) (cl : Int),
      search_keyword_in_file_full fe isf opened kw cs cl ≠ .DecodeError)
    ∧ (∀ (content : List Nat) (kw : Str) (cs : Bool) (cl : Int),
      search_keyword_in_file_full true true (.bytes content) kw cs cl
        = search_keyword_in_file (pyReadlines (utf8DecodeIgnore content)) kw cs cl)
    ∧ utf8DecodeIgnore [0x68, 0xFF, 0x69] = "hi".data
    ∧ search_keyword_in_file_full true true (.bytes [0x68, 0xFF, 0x69]) "hi".data false 2
        = .Found [⟨1, "hi".data, [⟨">>>", 1, "hi".data⟩]⟩] := by
  refine ⟨?_, ?_, by decide, by decide⟩
  · intro fe isf opened kw cs cl
    unfold search_keyword_in_file_full
    cases fe with
    | false => simp
    | true =>
      cases isf with
      | false => simp
      | true =>
        simp only [Bool.true_eq_false, if_false]
        cases opened with
        | bytes content =>
          rcases search_keyword_in_file_cases
              (pyReadlines (utf8DecodeIgnore content)) kw cs cl with h | ⟨ms, h⟩ <;>
            simp [h]
        | permissionDenied => simp
        | otherError => simp
  · intro content kw cs cl
    rfl

/-- Claim C4: in both operations a line yields at most one match
however often the keyword occurs inside it - the match count equals the
count of lines passing the boolean test - and the line numbers of the
match list are strictly increasing in file order. -/
theorem C4_monotone_line_numbers :
    ∀ (lines : List Str) (kw : Str) (cs : Bool) (cl : Int),
      ((fileMatches lines kw cs cl).map FMatch.line_number).Pairwise (· < ·)
      ∧ (fileMatches lines kw cs cl).length
          = (lines.filter (fun l => lineMatch cs kw l)).length
      ∧ ((dirFileMatches lines kw cs).map DMatch.line_number).Pairwise (· < ·)
      ∧ (dirFileMatches lines kw cs).length
          = (lines.filter (fun l => lineMatch cs kw l)).length := by
  intro lines kw cs cl
  refine ⟨?_, fileMatches_length lines kw cs cl, ?_, dirFileMatches_length lines kw cs⟩
  · rw [fileMatches_map_line_number]
    exact matchLineNums_pairwise lines kw cs
  · rw [dirFileMatches_map_line_number]
    exact matchLineNums_pairwise lines kw cs

/-- Claim C5: with case sensitivity off a line matches exactly when the
lowercased keyword is a substring of the lowercased line, and with case
sensitivity on exactly when the keyword occurs verbatim; the same
semantics governs the single-file and the directory scan. -/
theorem C5_case_sensitivity :
    ∀ (lines : List Str) (kw : Str) (cl : Int) (n : Nat),
      ((∃ m ∈ fileMatches lines kw false cl, m.line_number = n) ↔
        (∃ line, 1 ≤ n ∧ lines[n - 1]? = some line ∧ pyLower kw <:+: pyLower line))
      ∧ ((∃ m ∈ fileMatches lines kw true cl, m.line_number = n) ↔
        (∃ line, 1 ≤ n ∧ lines[n - 1]? = some line ∧ kw <:+: line))
      ∧ ((∃ m ∈ dirFileMatches lines kw false, m.line_number = n) ↔
        (∃ line, 1 ≤ n ∧ lines[n - 1]? = some line ∧ pyLower kw <:+: pyLower line))
      ∧ ((∃ m ∈ dirFileMatches lines kw true, m.line_number = n) ↔
        (∃ line, 1 ≤ n ∧ lines[n - 1]? = some line ∧ kw <:+: line)) := by
  intro lines kw cl n
  refine ⟨?_, ?_, ?_, ?_⟩
  · rw [exists_fileMatch_iff]
    exact exists_congr fun line => by rw [lineMatch_false_iff]
  · rw [exists_fileMatch_iff]
    exact exists_congr fun line => by rw [lineMatch_true_iff]
  · rw [exists_dirMatch_iff]
    exact exists_congr fun line => by rw [lineMatch_false_iff]
  · rw [exists_dirMatch_iff]
    exact exists_congr fun line => by rw [lineMatch_true_iff]

/-- Claim C6: when no pattern is given a file is included exactly when
its extension, lowercased, lies in the fixed allow-list, and every
other file contributes nothing to the search. -/
theorem C6_extension_allowlist :
    (∀ file : Str, fileIncluded file none = true ↔
      pyLower (splitextExt file) ∈
        [".py".data, ".txt".data, ".md".data, ".json".data, ".xml".data, ".html".data,
         ".css".data, ".js".data, ".ts".data, ".java".data, ".cpp".data, ".c".data,
         ".h".data, ".hpp".data, ".rs".data, ".go".data, ".rb".data, ".php".data,
         ".sh".data, ".yaml".data, ".yml".data, ".toml".data, ".ini".data, ".cfg".data,
         ".conf".data])
    ∧ (∀ (kw : Str) (cs : Bool) (f : DirFile),
        fileIncluded f.name none = false → dirScanFile kw none cs f = none) := by
  constructor
  · intro file
    unfold fileIncluded
    simp [truthyPat, text_extensions]
  · intro kw cs f h
    exact dirScanFile_none_of_not_included h

/-- Witness for claim C6: a file named x.zzz is not in the allow-list
and is skipped by the walk. -/
theorem C6_extension_allowlist_witness :
    fileIncluded "x.zzz".data none = false
    ∧ dirScanFile "k".data none false ⟨"x.zzz".data, "x.zzz", .ok ["k".data]⟩ = none :=
  ⟨by decide,
    C6_extension_allowlist.2 "k".data false ⟨"x.zzz".data, "x.zzz", .ok ["k".data]⟩
      (by decide)⟩

/-- Claim C7: a file whose per-file read raises any caught exception is
silently absent from the result mapping, the rest of the walk is
unaffected, and the overall call returns exactly what it would have
returned without that file. -/
theorem C7_per_file_errors_skipped :
    ∀ (pre post : List DirFile) (f : DirFile) (kw : Str) (pat : Option Str) (cs : Bool),
      f.read.isErr = true →
      matches_by_file (pre ++ f :: post) kw pat cs
          = matches_by_file (pre ++ post) kw pat cs
      ∧ search_keyword_in_directory (pre ++ f :: post) kw pat cs
          = search_keyword_in_directory (pre ++ post) kw pat cs := by
  intro pre post f kw pat cs herr
  have hnone : dirScanFile kw pat cs f = none := dirScanFile_none_of_err herr
  have hm : matches_by_file (pre ++ f :: post) kw pat cs
      = matches_by_file (pre ++ post) kw pat cs := by
    unfold matches_by_file
    simp [List.filterMap_append, List.filterMap_cons, hnone]
  refine ⟨hm, ?_⟩
  unfold search_keyword_in_directory
  rw [hm]

/-- Witness for claim C7: a permission-denied file next to a readable
matching file leaves the mapping of the readable file intact. -/
theorem C7_per_file_errors_skipped_witness :
    ((⟨"a.txt".data, "a.txt", .permissionError⟩ : DirFile).read.isErr = true)
    ∧ matches_by_file
        [⟨"good.txt".data, "good.txt", .ok ["hello".data]⟩,
         ⟨"a.txt".data, "a.txt", .permissionError⟩] "hello".data none false
      = matches_by_file
        [⟨"good.txt".data, "good.txt", .ok ["hello".data]⟩] "hello".data none false :=
  ⟨by decide,
    (C7_per_file_errors_skipped [⟨"good.txt".data, "good.txt", .ok ["hello".data]⟩] []
      ⟨"a.txt".data, "a.txt", .permissionError⟩ "hello".data none false (by decide)).1⟩

/-- The single-file scan yields no match when no line passes the test. -/
theorem fileMatches_eq_nil {lines : List Str} {kw : Str} {cs : Bool} {cl : Int}
    (h : ∀ l ∈ lines, lineMatch cs kw l = false) :
    fileMatches lines kw cs cl = [] := by
  apply List.eq_nil_of_length_eq_zero
  rw [fileMatches_length]
  rw [List.length_eq_zero, List.filter_eq_nil_iff]
  intro a ha
  simp [h a ha]

/-- The directory scan yields no match when no line passes the test. -/
theorem dirFileMatches_eq_nil {lines : List Str} {kw : Str} {cs : Bool}
    (h : ∀ l ∈ lines, lineMatch cs kw l = false) :
    dirFileMatches lines kw cs = [] := by
  apply List.eq_nil_of_length_eq_zero
  rw [dirFileMatches_length]
  rw [List.length_eq_zero, List.filter_eq_nil_iff]
  intro a ha
  simp [h a ha]

/-- Claim C8: when nothing matches, both operations return the explicit
no-match outcome: the single-file search for an absent keyword, the
directory search on an empty directory, and the directory search when
no readable included file has a matching line; in particular the
no-match outcome is distinct from a success report with an empty
body. -/
theorem C8_no_matches_message :
    (∀ (lines : List Str) (kw : Str) (cs : Bool) (cl : Int),
        (∀ l ∈ lines, lineMatch cs kw l = false) →
        search_keyword_in_file lines kw cs cl = .NoMatches)
    ∧ (∀ (kw : Str) (pat : Option Str) (cs : Bool),
        search_keyword_in_directory [] kw pat cs = .NoMatchesDir)
    ∧ (∀ (files : List DirFile) (kw : Str) (pat : Option Str) (cs : Bool),
        (∀ f ∈ files, fileIncluded f.name pat = true →
          ∀ ls, f.read = .ok ls → ∀ l ∈ ls, lineMatch cs kw l = false) →
        search_keyword_in_directory files kw pat cs = .NoMatchesDir)
    ∧ (∀ ms, FileSearchResult.NoMatches ≠ FileSearchResult.Found ms)
    ∧ (∀ mm, DirResult.NoMatchesDir ≠ DirResult.FoundDir mm) := by
  refine ⟨?_, ?_, ?_, ?_, ?_⟩
  · intro lines kw cs cl h
    have hnil := @fileMatches_eq_nil lines kw cs cl h
    simp only [search_keyword_in_file, hnil]
    rfl
  · intro kw pat cs
    rfl
  · intro files kw pat cs h
    have hnil : matches_by_file files kw pat cs = [] := by
      unfold matches_by_file
      rw [List.filterMap_eq_nil_iff]
      intro f hf
      unfold dirScanFile
      by_cases hi : fileIncluded f.name pat
      · rw [if_pos hi]
        cases hr : f.read with
        | ok ls =>
          have hfm := dirFileMatches_eq_nil (h f hf hi ls hr)
          simp [hfm]
        | permissionError => rfl
        | decodeError => rfl
        | otherError => rfl
      · rw [if_neg hi]
    simp only [search_keyword_in_directory, hnil]
    rfl
  · intro ms hcontra
    exact FileSearchResult.noConfusion hcontra
  · intro mm hcontra
    exact DirResult.noConfusion hcontra

/-- Witness for claim C8: a one-line file without the keyword reports
no matches; a directory whose only included file has no matching line
reports no matches; and a directory whose only file contains the
keyword but is excluded by the filter also reports no matches. -/
theorem C8_no_matches_message_witness :
    search_keyword_in_file ["alpha".data] "zzz".data false 2 = .NoMatches
    ∧ search_keyword_in_directory [⟨"a.txt".data, "a.txt", .ok ["alpha".data]⟩]
        "zzz".data none false = .NoMatchesDir
    ∧ search_keyword_in_directory [⟨"notes.zzz".data, "notes.zzz", .ok ["hello".data]⟩]
        "hello".data none false = .NoMatchesDir :=
  ⟨C8_no_matches_message.1 ["alpha".data] "zzz".data false 2 (by decide),
    C8_no_matches_message.2.2.1 [⟨"a.txt".data, "a.txt", .ok ["alpha".data]⟩]
      "zzz".data none false (by
        intro f hf hinc ls hread l hl
        simp only [List.mem_singleton] at hf
        subst hf
        cases hread
        simp only [List.mem_singleton] at hl
        subst hl
        decide),
    C8_no_matches_message.2.2.1 [⟨"notes.zzz".data, "notes.zzz", .ok ["hello".data]⟩]
      "hello".data none false (by
        intro f hf hinc ls hread l hl
        simp only [List.mem_singleton] at hf
        subst hf
        exact absurd hinc (by decide))⟩

/-- The empty keyword passes the per-line test on every line. -/
theorem lineMatch_nil (cs : Bool) (line : Str) : lineMatch cs [] line = true := by
  cases cs <;> simp [lineMatch, prepKeyword, prepLine, pyLower]

/-- With the empty keyword the matching line numbers are all the line
numbers of the file. -/
theorem matchLineNums_empty_kw (lines : List Str) (cs : Bool) :
    matchLineNums lines [] cs = List.range' 1 lines.length := by
  unfold matchLineNums
  have h := filterMap_if_true (fun (p : Nat × Str) => lineMatch cs [] p.2)
    (fun (p : Nat × Str) => p.1) (enumerate1 1 lines) (fun x _ => lineMatch_nil cs x.2)
  exact h.trans (enumerate1_map_fst 1 lines)

/-- Claim C9: the empty keyword is a substring of every line, so the
single-file search on a non-empty readable file reports one match per
line of the file, and the directory search includes every included
readable non-empty file in the result mapping. -/
theorem C9_empty_keyword :
    (∀ (line : Str) (cs : Bool), lineMatch cs [] line = true)
    ∧ (∀ (lines : List Str) (cs : Bool) (cl : Int),
        (fileMatches lines [] cs cl).map FMatch.line_number = List.range' 1 lines.length)
    ∧ (∀ (lines : List Str) (cs : Bool) (cl : Int), lines ≠ [] →
        search_keyword_in_file lines [] cs cl = .Found (fileMatches lines [] cs cl)
        ∧ (fileMatches lines [] cs cl).length = lines.length)
    ∧ (∀ (files : List DirFile) (pat : Option Str) (cs : Bool) (f : DirFile),
        f ∈ files → fileIncluded f.name pat = true →
        ∀ ls, f.read = .ok ls → ls ≠ [] →
        ∃ e ∈ matches_by_file files [] pat cs, e.1 = f.rel_path) := by
  have hmap : ∀ (lines : List Str) (cs : Bool) (cl : Int),
      (fileMatches lines [] cs cl).map FMatch.line_number = List.range' 1 lines.length := by
    intro lines cs cl
    rw [fileMatches_map_line_number]
    exact matchLineNums_empty_kw lines cs
  have hlen : ∀ (lines : List Str) (cs : Bool) (cl : Int),
      (fileMatches lines [] cs cl).length = lines.length := by
    intro lines cs cl
    have h := congrArg List.length (hmap lines cs cl)
    simpa [List.length_range'] using h
  refine ⟨fun line cs => lineMatch_nil cs line, hmap, ?_, ?_⟩
  · intro lines cs cl hne
    have hnil : fileMatches lines [] cs cl ≠ [] := by
      intro h0
      apply hne
      have hl := hlen lines cs cl
      rw [h0] at hl
      exact List.length_eq_zero.mp hl.symm
    refine ⟨?_, hlen lines cs cl⟩
    simp only [search_keyword_in_file]
    rw [if_neg (fun h => hnil (List.isEmpty_iff.mp h))]
  · intro files pat cs f hf hinc ls hread hne
    have hdlen : (dirFileMatches ls [] cs).length = ls.length := by
      have h := congrArg List.length (dirFileMatches_map_line_number ls [] cs)
      simpa [matchLineNums_empty_kw, List.length_range'] using h
    have hfm : dirFileMatches ls [] cs ≠ [] := by
      intro h0
      apply hne
      rw [h0] at hdlen
      exact List.length_eq_zero.mp hdlen.symm
    have hscan : dirScanFile [] pat cs f = some (f.rel_path, dirFileMatches ls [] cs) := by
      unfold dirScanFile
      rw [if_pos hinc, hread]
      simp only []
      rw [if_neg (fun h => hfm (List.isEmpty_iff.mp h))]
    exact ⟨(f.rel_path, dirFileMatches ls [] cs),
      List.mem_filterMap.mpr ⟨f, hf, hscan⟩, rfl⟩

/-- Witness for claim C9: a one-line file searched for the empty
keyword yields a found report. -/
theorem C9_empty_keyword_witness :
    (["a".data] ≠ ([] : List Str))
    ∧ search_keyword_in_file ["a".data] [] false 2
        = .Found (fileMatches ["a".data] [] false 2) :=
  ⟨by decide, (C9_empty_keyword.2.2.1 ["a".data] false 2 (by decide)).1⟩

/-- Claim C10: a negative context size does not make the single-file
search fail: every matching line is still reported, with the same line
numbers as for any other context size, but its context block is the
empty window - it holds no line at all, not even the matched one. -/
theorem C10_negative_context :
    ∀ (lines : List Str) (kw : Str) (cs : Bool) (cl : Int), cl ≤ -1 →
      ((fileMatches lines kw cs cl).map FMatch.line_number = matchLineNums lines kw cs)
      ∧ (∀ m ∈ fileMatches lines kw cs cl, m.context = []) := by
  intro lines kw cs cl hcl
  refine ⟨fileMatches_map_line_number lines kw cs cl, ?_⟩
  intro m hm
  obtain ⟨n, line, hen, hc, rfl⟩ := mem_fileMatches.mp hm
  show mkContext lines n cl = []
  apply List.eq_nil_of_length_eq_zero
  have hlen : (mkContext lines n cl).length
      = ((min ((lines.length : Int)) ((n : Int) + cl) + 1)
          - max 1 ((n : Int) - cl)).toNat := by
    simp [mkContext, length_pyRange]
  rw [hlen]
  omega

/-- Witness for claim C10: with context size minus three the match on
the single line beta is still reported at line 1. -/
theorem C10_negative_context_witness :
    ((-3 : Int) ≤ -1)
    ∧ (fileMatches ["beta".data] "beta".data false (-3)).map FMatch.line_number
        = matchLineNums ["beta".data] "beta".data false :=
  ⟨by decide,
    (C10_negative_context ["beta".data] "beta".data false (-3) (by decide)).1⟩

end FileSearchServer
